import Mathlib

/-!
Verification of the camera/AprilTag workshop server (`src/app.py`).

This file gives a shallow embedding of the parts of `app.py` relevant to the
frozen claims: the controller heartbeat / snapshot state machine, the surface
plane calibration endpoint, the per-detection mapping (`_map_detection`), the
AprilTag detection loop, and the MJPEG subscriber counter.  Machine floats are
idealised as rationals; timestamps are rationals; external library calls
(numpy's SVD and vector norm, OpenCV, the AprilTag detector) are modelled as
oracles/step inputs.  Python dicts are modelled as insertion-ordered
association lists, matching CPython's ordering guarantees.
-/

/-! ### Small vector utilities (numpy fragments used by `app.py`) -/

/-- A 3-D point / vector, idealising a numpy `float64` 3-vector. -/
abbrev Vec3 : Type := ℚ × ℚ × ℚ

def vecAdd (a b : Vec3) : Vec3 := (a.1 + b.1, a.2.1 + b.2.1, a.2.2 + b.2.2)

def vecSub (a b : Vec3) : Vec3 := (a.1 - b.1, a.2.1 - b.2.1, a.2.2 - b.2.2)

def vecSmul (c : ℚ) (a : Vec3) : Vec3 := (c * a.1, c * a.2.1, c * a.2.2)

/-- `np.dot` on 3-vectors. -/
def vecDot (a b : Vec3) : ℚ := a.1 * b.1 + a.2.1 * b.2.1 + a.2.2 * b.2.2

/-- A 3x3 matrix given by rows (`pose_R`). -/
abbrev Mat3 : Type := Vec3 × Vec3 × Vec3

/-- Matrix-vector product `R @ v`. -/
def matVec (r : Mat3) (v : Vec3) : Vec3 := (vecDot r.1 v, vecDot r.2.1 v, vecDot r.2.2 v)

/-- `pts.mean(axis=0)`: the centroid of a list of points. -/
def vecCentroid (pts : List Vec3) : Vec3 :=
  vecSmul (1 / (pts.length : ℚ)) (pts.foldl vecAdd (0, 0, 0))

/-- Absolute value on ℚ, written out so it evaluates. -/
def ratAbs (x : ℚ) : ℚ := if x < 0 then -x else x

/-- Python's `round` on exact values: round half to even. -/
def roundHalfToEven (x : ℚ) : ℤ :=
  if x - ⌊x⌋ < 1 / 2 then ⌊x⌋
  else if 1 / 2 < x - ⌊x⌋ then ⌊x⌋ + 1
  else if ⌊x⌋ % 2 = 0 then ⌊x⌋ else ⌊x⌋ + 1

/-- `round(x, 4)` of `app.py` line 344, idealised over the rationals. -/
def roundTo4 (x : ℚ) : ℚ := (roundHalfToEven (x * 10000) : ℚ) / 10000

/-! ### String helpers (Python `strip`, `lower`, substring test) -/

/-- Python `str.strip()` on the character list (whitespace both ends). -/
def trimChars (l : List Char) : List Char :=
  ((l.dropWhile Char.isWhitespace).reverse.dropWhile Char.isWhitespace).reverse

def stripStr (s : String) : String := String.mk (trimChars s.toList)

/-- Python `str.lower()` (ASCII fragment). -/
def lowerStr (s : String) : String := String.mk (s.toList.map Char.toLower)

/-- Does `l` start with `p`? -/
def charsStartWith : List Char → List Char → Bool
  | _, [] => true
  | [], _ :: _ => false
  | a :: as, b :: bs => a == b && charsStartWith as bs

/-- Python's `pat in hay` substring test on character lists. -/
def charsContain : List Char → List Char → Bool
  | [], pat => pat.isEmpty
  | a :: t, pat => charsStartWith (a :: t) pat || charsContain t pat

/-- `_is_apriltag_pose_ambiguity_error` (`app.py` lines 350-354). -/
def is_apriltag_pose_ambiguity_error (msg : String) : Bool :=
  let m := lowerStr (stripStr msg)
  if m = "" then false
  else charsContain m.toList "more than one new minima found".toList

/-! ### Association lists modelling Python dicts (insertion ordered) -/

def alistLookup {α β : Type} [DecidableEq α] : List (α × β) → α → Option β
  | [], _ => none
  | (k, v) :: t, a => if k = a then some v else alistLookup t a

/-- `d[k] = v`: replace in place if present, else append. -/
def alistInsert {α β : Type} [DecidableEq α] : List (α × β) → α → β → List (α × β)
  | [], a, b => [(a, b)]
  | (k, v) :: t, a, b => if k = a then (a, b) :: t else (k, v) :: alistInsert t a b

/-! ### Controller constants and sanitizers (`app.py` lines 25-28, 129-168) -/

def CONTROLLER_HEARTBEAT_TTL_SEC : ℚ := 4 / 5

def CONTROLLER_NOTE_TEXT_MAX_LEN : Nat := 500

def controllerSupportedTools : List String := ["draw", "dot", "note", "eraser", "selection"]

/-- Character class of `CONTROLLER_CLIENT_ID_RE`. -/
def clientIdChar (c : Char) : Bool :=
  ('A' ≤ c && c ≤ 'Z') || ('a' ≤ c && c ≤ 'z') || ('0' ≤ c && c ≤ '9') || c = '_' || c = '-'

/-- Full match against `^[A-Za-z0-9_-]{1,64}$`. -/
def clientIdMatches (s : String) : Bool :=
  decide (1 ≤ s.length) && decide (s.length ≤ 64) && s.toList.all clientIdChar

/-- `sanitize_controller_client_id`: `none` models a missing or non-string value. -/
def sanitize_controller_client_id (raw : Option String) : Option String :=
  match raw with
  | none => none
  | some s =>
    let candidate := stripStr s
    if candidate = "" then none
    else if clientIdMatches candidate then some candidate else none

/-- `sanitize_controller_trigger_tag_id`: `none` models a value `int()` rejects. -/
def sanitize_controller_trigger_tag_id (raw : Option ℤ) : Option ℤ :=
  match raw with
  | none => none
  | some n => if n < 1 ∨ 9999 < n then none else some n

/-- `sanitize_controller_note_text`: `none` models the JSON value `None`/missing. -/
def sanitize_controller_note_text (raw : Option String) : String :=
  match raw with
  | none => ""
  | some s =>
    if CONTROLLER_NOTE_TEXT_MAX_LEN < s.length
    then String.mk (s.toList.take CONTROLLER_NOTE_TEXT_MAX_LEN) else s

/-- `sanitize_controller_note_finalize_tick`: `none` models a value `int()` rejects. -/
def sanitize_controller_note_finalize_tick (raw : Option ℤ) : ℤ :=
  match raw with
  | none => 0
  | some n => if n < 0 then 0 else if 1000000000 < n then 1000000000 else n

/-- `str(raw or "draw").strip().lower()` as used on tool fields. -/
def controllerToolOf (raw : Option String) : String :=
  lowerStr (stripStr (match raw with
    | none => "draw"
    | some s => if s = "" then "draw" else s))

/-! ### Controller client state and snapshot (`app.py` lines 171-256) -/

/-- One entry of the `controller_clients` dict (values as stored by the
heartbeat endpoint; `updatedAt` is a wall-clock timestamp). -/
structure ClientState where
  active : Bool
  tool : String
  triggerTagId : Option ℤ
  noteText : String
  noteSessionActive : Bool
  noteFinalizeTick : ℤ
  updatedAt : ℚ
deriving DecidableEq

/-- Server-side controller state: the client dict plus `controller_state_seq`. -/
structure ControllerModel where
  clients : List (String × ClientState)
  seq : ℤ
deriving DecidableEq

structure NoteCandidate where
  text : String
  sessionActive : Bool
  finalizeTick : ℤ
  updatedAt : ℚ
deriving DecidableEq

structure ToolCandidate where
  tool : String
  updatedAt : ℚ
deriving DecidableEq

/-- The live-entry accumulators of the snapshot scan loop. -/
structure LiveScan where
  activeClients : ℤ
  lastUpdatedAt : ℚ
  noteByTrigger : List (ℤ × NoteCandidate)
  toolByTrigger : List (ℤ × ToolCandidate)
deriving DecidableEq

/-- Note-state contribution step of the scan loop (`app.py` lines 197-208). -/
def scanNoteUpdate (lv : LiveScan) (trig : ℤ) (c : ClientState) : LiveScan :=
  let noteText := sanitize_controller_note_text (some c.noteText)
  let tick := sanitize_controller_note_finalize_tick (some c.noteFinalizeTick)
  if c.noteSessionActive = true ∨ noteText ≠ "" ∨ 0 < tick then
    let cand : NoteCandidate :=
      { text := noteText, sessionActive := c.noteSessionActive,
        finalizeTick := tick, updatedAt := c.updatedAt }
    match alistLookup lv.noteByTrigger trig with
    | none => { lv with noteByTrigger := alistInsert lv.noteByTrigger trig cand }
    | some prev =>
      if prev.updatedAt ≤ c.updatedAt
      then { lv with noteByTrigger := alistInsert lv.noteByTrigger trig cand } else lv
  else lv

/-- Active-tool contribution step of the scan loop (`app.py` lines 210-222). -/
def scanToolUpdate (lv : LiveScan) (trig : ℤ) (c : ClientState) : LiveScan :=
  if c.active = false then lv
  else
    let tool := controllerToolOf (some c.tool)
    if controllerSupportedTools.contains tool = false then lv
    else
      let cand : ToolCandidate := { tool := tool, updatedAt := c.updatedAt }
      match alistLookup lv.toolByTrigger trig with
      | none => { lv with toolByTrigger := alistInsert lv.toolByTrigger trig cand }
      | some prev =>
        if prev.updatedAt ≤ c.updatedAt
        then { lv with toolByTrigger := alistInsert lv.toolByTrigger trig cand } else lv

/-- Processing of one live client entry (`app.py` lines 189-222). -/
def scanLiveStep (lv : LiveScan) (c : ClientState) : LiveScan :=
  let lv1 : LiveScan :=
    { lv with
      activeClients := lv.activeClients + 1
      lastUpdatedAt := if lv.lastUpdatedAt < c.updatedAt then c.updatedAt else lv.lastUpdatedAt }
  match sanitize_controller_trigger_tag_id c.triggerTagId with
  | none => lv1
  | some trig => scanToolUpdate (scanNoteUpdate lv1 trig c) trig c

/-- One iteration of the snapshot scan over `controller_clients.items()`
(`app.py` lines 183-222): expired entries only collect their id. -/
def snapshotScanStep (now : ℚ) (s : List String × LiveScan) (entry : String × ClientState) :
    List String × LiveScan :=
  if CONTROLLER_HEARTBEAT_TTL_SEC < now - entry.2.updatedAt then
    (s.1 ++ [entry.1], s.2)
  else
    (s.1, scanLiveStep s.2 entry.2)

def controllerScanInit : List String × LiveScan := ([], ⟨0, 0, [], []⟩)

/-- Insertion sort used to model Python's `sorted` on integer keys. -/
def insertSorted (n : ℤ) : List ℤ → List ℤ
  | [] => [n]
  | h :: t => if n ≤ h then n :: h :: t else h :: insertSorted n t

def sortInts (l : List ℤ) : List ℤ := l.foldr insertSorted []

/-- Rendering of `active_tool_by_trigger_tag_id` and the draw-trigger set
(`app.py` lines 229-237); returns the string-keyed map and the draw keys. -/
def renderToolMap (m : List (ℤ × ToolCandidate)) : List (String × String) × List ℤ :=
  (sortInts (m.map Prod.fst)).foldl
    (fun acc k =>
      match alistLookup m k with
      | none => acc
      | some cand =>
        let tool := lowerStr (stripStr cand.tool)
        if controllerSupportedTools.contains tool = false then acc
        else (acc.1 ++ [(toString k, tool)], if tool = "draw" then acc.2 ++ [k] else acc.2))
    ([], [])

/-- Rendering of `remote_note_state_by_trigger_tag_id` (`app.py` lines 239-247):
values are `(text, sessionActive, finalizeTick)`. -/
def renderNoteMap (m : List (ℤ × NoteCandidate)) : List (String × (String × Bool × ℤ)) :=
  (sortInts (m.map Prod.fst)).foldl
    (fun acc k =>
      match alistLookup m k with
      | none => acc
      | some ns => acc ++ [(toString k, (ns.text, ns.sessionActive, ns.finalizeTick))])
    []

/-- The JSON controller snapshot (`app.py` lines 249-256). -/
structure ControllerSnapshot where
  seq : ℤ
  updatedAt : ℚ
  activeClients : ℤ
  activeToolByTriggerTagId : List (String × String)
  remoteNoteStateByTriggerTagId : List (String × (String × Bool × ℤ))
  activeDrawTriggerTagIds : List ℤ
deriving DecidableEq

/-- Removal of the expired ids from the client dict (`app.py` lines 224-226). -/
def removeClientIds (ids : List String) (clients : List (String × ClientState)) :
    List (String × ClientState) :=
  clients.filter (fun p => ids.contains p.1 = false)

/-- `get_controller_state_snapshot` (`app.py` lines 171-256), as a pure function
of the controller state and the current time; returns the snapshot and the
mutated state. -/
def get_controller_state_snapshot (m : ControllerModel) (now : ℚ) :
    ControllerSnapshot × ControllerModel :=
  let scan := m.clients.foldl (snapshotScanStep now) controllerScanInit
  let clients' := if scan.1 = [] then m.clients else removeClientIds scan.1 m.clients
  let seq' := if scan.1 = [] then m.seq else m.seq + 1
  let rendered := renderToolMap scan.2.toolByTrigger
  ({ seq := seq', updatedAt := scan.2.lastUpdatedAt, activeClients := scan.2.activeClients,
     activeToolByTriggerTagId := rendered.1,
     remoteNoteStateByTriggerTagId := renderNoteMap scan.2.noteByTrigger,
     activeDrawTriggerTagIds := sortInts rendered.2 },
   { clients := clients', seq := seq' })

/-! ### Controller heartbeat endpoint (`app.py` lines 618-671) -/

/-- The JSON body of a heartbeat request; `none` in an `Option` field models a
missing value or one the corresponding Python conversion rejects. -/
structure HeartbeatPayload where
  clientId : Option String
  tool : Option String
  active : Bool
  triggerTagId : Option ℤ
  noteText : Option String
  noteSessionActive : Bool
  noteFinalizeTick : Option ℤ
deriving DecidableEq

inductive UpsertOutcome where
  | rejected (code : String)
  | accepted (clientId : String) (nextState : ClientState) (changed : Bool)
deriving DecidableEq

/-- Fields the change test reads from the previous entry (`app.py` lines 655-661);
a missing entry behaves as the empty dict. -/
def prevActiveOf : Option ClientState → Bool
  | none => false
  | some c => c.active

def prevToolOf : Option ClientState → String
  | none => ""
  | some c => c.tool

def prevTrigOf : Option ClientState → Option ℤ
  | none => none
  | some c => sanitize_controller_trigger_tag_id c.triggerTagId

def prevNoteTextOf : Option ClientState → String
  | none => ""
  | some c => sanitize_controller_note_text (some c.noteText)

def prevNsaOf : Option ClientState → Bool
  | none => false
  | some c => c.noteSessionActive

def prevTickOf : Option ClientState → ℤ
  | none => 0
  | some c => sanitize_controller_note_finalize_tick (some c.noteFinalizeTick)

/-- The `next_state` dict the heartbeat stores (`app.py` lines 646-654). -/
def hbNextState (p : HeartbeatPayload) (now : ℚ) : ClientState :=
  { active := p.active, tool := controllerToolOf p.tool,
    triggerTagId := sanitize_controller_trigger_tag_id p.triggerTagId,
    noteText := sanitize_controller_note_text p.noteText,
    noteSessionActive := p.noteSessionActive,
    noteFinalizeTick := sanitize_controller_note_finalize_tick p.noteFinalizeTick,
    updatedAt := now }

/-- The material-change test of the heartbeat (`app.py` lines 655-663): any of
the six reconciled fields differing from the previous entry. -/
def hbChanged (previous : Option ClientState) (next : ClientState) : Bool :=
  if prevActiveOf previous = next.active ∧ prevToolOf previous = next.tool ∧
     prevTrigOf previous = next.triggerTagId ∧ prevNoteTextOf previous = next.noteText ∧
     prevNsaOf previous = next.noteSessionActive ∧ prevTickOf previous = next.noteFinalizeTick
  then false else true

/-- Validation and per-client upsert portion of `api_controller_heartbeat`
(`app.py` lines 621-666): returns the outcome and the mutated state. -/
def controller_heartbeat_upsert (payload : Option HeartbeatPayload) (m : ControllerModel)
    (now : ℚ) : UpsertOutcome × ControllerModel :=
  match payload with
  | none => (UpsertOutcome.rejected "invalid_json", m)
  | some p =>
    match sanitize_controller_client_id p.clientId with
    | none => (UpsertOutcome.rejected "invalid_client_id", m)
    | some cid =>
      if controllerSupportedTools.contains (controllerToolOf p.tool) = false then
        (UpsertOutcome.rejected "invalid_tool", m)
      else if p.active = true ∧ sanitize_controller_trigger_tag_id p.triggerTagId = none then
        (UpsertOutcome.rejected "invalid_trigger_tag_id", m)
      else
        let nextState := hbNextState p now
        let changed := hbChanged (alistLookup m.clients cid) nextState
        (UpsertOutcome.accepted cid nextState changed,
         { clients := alistInsert m.clients cid nextState,
           seq := if changed = true then m.seq + 1 else m.seq })

inductive HeartbeatResult where
  | badRequest (code : String)
  | ok (snap : ControllerSnapshot)
deriving DecidableEq

def heartbeatStatus : HeartbeatResult → Nat
  | .badRequest _ => 400
  | .ok _ => 200

def heartbeatErrorCode : HeartbeatResult → Option String
  | .badRequest c => some c
  | .ok _ => none

/-- `api_controller_heartbeat` (`app.py` lines 618-671): validate, upsert, then
answer with a fresh snapshot (which may itself purge expired entries). -/
def api_controller_heartbeat (payload : Option HeartbeatPayload) (m : ControllerModel)
    (now : ℚ) : HeartbeatResult × ControllerModel :=
  match controller_heartbeat_upsert payload m now with
  | (UpsertOutcome.rejected code, m') => (HeartbeatResult.badRequest code, m')
  | (UpsertOutcome.accepted _ _ _, m') =>
    let r := get_controller_state_snapshot m' now
    (HeartbeatResult.ok r.1, r.2)

/-! ### Surface plane calibration (`app.py` lines 549-582) -/

/-- One element of the posted `points` list; `none` coordinates model missing
keys or values `np.array(..., dtype=float64)` rejects. -/
structure RawPoint where
  x : Option ℚ
  y : Option ℚ
  z : Option ℚ
deriving DecidableEq

def rawPointCoords (p : RawPoint) : Option Vec3 :=
  match p.x, p.y, p.z with
  | some a, some b, some c => some (a, b, c)
  | _, _, _ => none

/-- Conversion of the whole list, failing if any point is malformed. -/
def parseSurfacePoints : List RawPoint → Option (List Vec3)
  | [] => some []
  | p :: t =>
    match rawPointCoords p, parseSurfacePoints t with
    | some v, some vs => some (v :: vs)
    | _, _ => none

/-- The stored `surface_plane` dict. -/
structure SurfacePlane where
  normal : Vec3
  d : ℚ
  numPoints : Nat
deriving DecidableEq

/-- Oracle for the numpy calls `np.linalg.svd` (last row of `vh`, i.e. the
right-singular vector of the smallest singular value of the row matrix) and
`np.linalg.norm`. -/
structure LinAlgOracle where
  svdLastRow : List Vec3 → Vec3
  vecNorm : Vec3 → ℚ

/-- `vh[-1]` of the SVD of the centered point matrix. -/
def surfaceFitVector (L : LinAlgOracle) (pts : List Vec3) : Vec3 :=
  L.svdLastRow (pts.map (fun q => vecSub q (vecCentroid pts)))

/-- `normal / np.linalg.norm(normal)`. -/
def surfaceFitNormal (L : LinAlgOracle) (pts : List Vec3) : Vec3 :=
  vecSmul (1 / L.vecNorm (surfaceFitVector L pts)) (surfaceFitVector L pts)

inductive SurfaceResponse where
  | badRequest (code : String)
  | okPlane (plane : SurfacePlane)
deriving DecidableEq

def surfaceStatus : SurfaceResponse → Nat
  | .badRequest _ => 400
  | .okPlane _ => 200

/-- `api_surface_plane` POST handler (`app.py` lines 549-582): returns the
response and the new stored plane.  `payload = none` models a body that is not
a JSON object or whose `points` member is not a list. -/
def api_surface_plane (L : LinAlgOracle) (payload : Option (List RawPoint))
    (plane0 : Option SurfacePlane) : SurfaceResponse × Option SurfacePlane :=
  match payload with
  | none => (SurfaceResponse.badRequest "invalid_json", plane0)
  | some rawPts =>
    if rawPts.length < 3 then (SurfaceResponse.badRequest "need_at_least_3_points", plane0)
    else
      match parseSurfacePoints rawPts with
      | none => (SurfaceResponse.badRequest "invalid_point_format", plane0)
      | some pts =>
        let normal := surfaceFitNormal L pts
        let d := -(vecDot normal (vecCentroid pts))
        let newPlane : SurfacePlane := { normal := normal, d := d, numPoints := rawPts.length }
        (SurfaceResponse.okPlane newPlane, some newPlane)

/-! ### Detection mapping (`app.py` lines 270-347) -/

/-- Configuration read by `_map_detection`: camera intrinsics, the pen tip
offset, the calibrated plane and the touch threshold. -/
structure DetectionCtx where
  cameraParams : Option (ℚ × ℚ × ℚ × ℚ)
  penTipOffset : Vec3
  surfacePlane : Option SurfacePlane
  touchThreshold : ℚ
deriving DecidableEq

/-- A raw detector result; `poseT`/`poseR` are present only when pose
estimation ran and produced finite values. -/
structure RawDetection where
  tagId : ℤ
  corners : List (ℚ × ℚ)
  center : ℚ × ℚ
  decisionMargin : ℚ
  poseT : Option Vec3
  poseR : Option Mat3
deriving DecidableEq

/-- The JSON object `_map_detection` produces for one detection. -/
structure MappedDetection where
  id : ℤ
  center : ℚ × ℚ
  corners : List (ℚ × ℚ)
  decisionMargin : ℚ
  pose : Option Vec3
  tipPose : Option Vec3
  tip : Option (ℚ × ℚ)
  surfaceDistance : Option ℚ
  isTouch : Option Bool
deriving DecidableEq

/-- `_map_detection` (`app.py` lines 270-347).  In the rational idealisation
every value is finite, so the `np.isfinite` guards always pass. -/
def map_detection (ctx : DetectionCtx) (det : RawDetection) : MappedDetection :=
  match det.poseT with
  | none =>
    { id := det.tagId, center := det.center, corners := det.corners,
      decisionMargin := det.decisionMargin, pose := none, tipPose := none, tip := none,
      surfaceDistance := none, isTouch := none }
  | some t =>
    let tipCam : Option Vec3 := det.poseR.map (fun r => vecAdd (matVec r ctx.penTipOffset) t)
    let tip2d : Option (ℚ × ℚ) :=
      match tipCam, ctx.cameraParams with
      | some tc, some (fx, fy, cx, cy) =>
        if 1 / 1000000 < tc.2.2 then
          some (fx * tc.1 / tc.2.2 + cx, fy * tc.2.1 / tc.2.2 + cy)
        else none
      | _, _ => none
    let poseForTouch : Vec3 := match tipCam with | some tc => tc | none => t
    let touch : Option (ℚ × Bool) :=
      match ctx.surfacePlane with
      | none => none
      | some pl =>
        let dist := ratAbs (vecDot pl.normal poseForTouch + pl.d)
        some (roundTo4 dist, decide (dist ≤ ctx.touchThreshold))
    { id := det.tagId, center := det.center, corners := det.corners,
      decisionMargin := det.decisionMargin, pose := some t, tipPose := tipCam,
      tip := tip2d, surfaceDistance := touch.map Prod.fst, isTouch := touch.map Prod.snd }

/-- The point the touch test uses: the computed tip if one exists, else the
tag-center pose translation (`pose_for_touch`, `app.py` line 336). -/
def touchRefPoint (md : MappedDetection) (t : Vec3) : Vec3 :=
  match md.tipPose with
  | some tp => tp
  | none => t

/-! ### AprilTag detection loop (`app.py` lines 396-466) -/

/-- Per-pass state of `apriltag_loop`: the pose flag and warning flag are loop
locals; `lastTags`, `seq` and `error` are the published detection state.
`warnCount` counts how many times the downgrade warning was printed. -/
structure TagLoopState where
  poseEnabled : Bool
  warned : Bool
  warnCount : Nat
  lastTags : List MappedDetection
  seq : ℤ
  error : Option String
deriving DecidableEq

/-- Outcome of one external `detect` call. -/
inductive DetectOutcome where
  | ok (dets : List RawDetection)
  | fail (msg : String)
deriving DecidableEq

/-- The external-call outcomes available to one pass of the loop: the result
the pose-estimating `detect` would give, and the result the 2-D-only `detect`
would give. -/
structure StepInput where
  poseResult : DetectOutcome
  det2dResult : DetectOutcome
deriving DecidableEq

/-- Successful publication of a pass (`app.py` lines 451-457). -/
def publishDetections (ctx : DetectionCtx) (s : TagLoopState) (dets : List RawDetection) :
    TagLoopState :=
  { s with lastTags := dets.map (map_detection ctx), seq := s.seq + 1, error := none }

/-- The `except` clause of the loop (`app.py` lines 458-463): the sequence
advances only if the message differs from the stored error. -/
def recordDetectionError (s : TagLoopState) (msg : String) : TagLoopState :=
  { s with seq := if s.error = some msg then s.seq else s.seq + 1, error := some msg }

/-- One detection pass of `apriltag_loop` on a fresh frame
(`app.py` lines 428-463). -/
def apriltagStep (ctx : DetectionCtx) (s : TagLoopState) (inp : StepInput) : TagLoopState :=
  if s.poseEnabled = true then
    match inp.poseResult with
    | DetectOutcome.ok dets => publishDetections ctx s dets
    | DetectOutcome.fail msg =>
      if is_apriltag_pose_ambiguity_error msg = true then
        let s1 : TagLoopState :=
          { s with
            poseEnabled := false
            warned := true
            warnCount := if s.warned = true then s.warnCount else s.warnCount + 1 }
        match inp.det2dResult with
        | DetectOutcome.ok dets => publishDetections ctx s1 dets
        | DetectOutcome.fail msg2 => recordDetectionError s1 msg2
      else recordDetectionError s msg
  else
    match inp.det2dResult with
    | DetectOutcome.ok dets => publishDetections ctx s dets
    | DetectOutcome.fail msg => recordDetectionError s msg

def apriltagRun (ctx : DetectionCtx) (s : TagLoopState) (inps : List StepInput) : TagLoopState :=
  inps.foldl (apriltagStep ctx) s

/-- All states the loop passes through, the initial one included. -/
def apriltagRunStates (ctx : DetectionCtx) (s : TagLoopState) : List StepInput → List TagLoopState
  | [] => [s]
  | i :: t => s :: apriltagRunStates ctx (apriltagStep ctx s i) t

/-- Is a 2-D-only `detect` failure of this pass a pose-ambiguity message? -/
def det2dNonAmbiguous (inp : StepInput) : Bool :=
  match inp.det2dResult with
  | DetectOutcome.ok _ => true
  | DetectOutcome.fail msg => !is_apriltag_pose_ambiguity_error msg

/-- Does the published error field avoid the pose-ambiguity message? -/
def errorNonAmbiguous (s : TagLoopState) : Bool :=
  match s.error with
  | none => true
  | some msg => !is_apriltag_pose_ambiguity_error msg

/-! ### MJPEG subscriber counter (`generate_frames`, `app.py` lines 498-527) -/

inductive StreamEvent where
  | conn
  | disc
deriving DecidableEq

/-- Connect: `stream_clients += 1` (`app.py` line 503). -/
def streamConnect (c : ℤ) : ℤ := c + 1

/-- Disconnect (every exit path): `stream_clients = max(0, stream_clients - 1)`
(`app.py` line 527). -/
def streamDisconnect (c : ℤ) : ℤ := max 0 (c - 1)

def streamEventStep (c : ℤ) : StreamEvent → ℤ
  | StreamEvent.conn => streamConnect c
  | StreamEvent.disc => streamDisconnect c

def streamRun (c : ℤ) (evs : List StreamEvent) : ℤ := evs.foldl streamEventStep c

def countConn : List StreamEvent → ℤ
  | [] => 0
  | StreamEvent.conn :: t => countConn t + 1
  | StreamEvent.disc :: t => countConn t

def countDisc : List StreamEvent → ℤ
  | [] => 0
  | StreamEvent.conn :: t => countDisc t
  | StreamEvent.disc :: t => countDisc t + 1

/-- Prefix-balanced traces: every disconnect is preceded by a matching connect
(true of any interleaving of connect-then-disconnect connection lifecycles).
`c` is the number of currently open connections. -/
def balancedFrom (c : ℤ) : List StreamEvent → Bool
  | [] => true
  | StreamEvent.conn :: t => balancedFrom (c + 1) t
  | StreamEvent.disc :: t => decide (1 ≤ c) && balancedFrom (c - 1) t

/-! ### Spec-side reference definitions -/

/-- Following the spec's words (section 3 and 4.4): a client contributes note
data when it reports non-empty text, an active note session, or a non-zero
finalize tick — independently of the `active` flag and the tool. -/
def specNoteContributes (c : ClientState) : Bool :=
  decide (c.noteText ≠ "") || c.noteSessionActive || decide (c.noteFinalizeTick ≠ 0)

/-- One client's contribution to the spec-side note resolution: a live client
with the trigger tag that contributes note data replaces the held candidate
when its `updatedAt` is greater than or equal to the held one. -/
def specNoteStep (now : ℚ) (tag : ℤ) (best : Option NoteCandidate) (q : String × ClientState) :
    Option NoteCandidate :=
  if now - q.2.updatedAt ≤ CONTROLLER_HEARTBEAT_TTL_SEC ∧ q.2.triggerTagId = some tag ∧
     specNoteContributes q.2 = true then
    match best with
    | none =>
      some { text := q.2.noteText, sessionActive := q.2.noteSessionActive,
             finalizeTick := q.2.noteFinalizeTick, updatedAt := q.2.updatedAt }
    | some prev =>
      if prev.updatedAt ≤ q.2.updatedAt then
        some { text := q.2.noteText, sessionActive := q.2.noteSessionActive,
               finalizeTick := q.2.noteFinalizeTick, updatedAt := q.2.updatedAt }
      else some prev
  else best

/-- Following the spec's words (section 4.4, step 3b): resolve the remote note
state of a trigger tag over the live clients, most-recent-`updatedAt` winning,
a later-processed candidate with `updatedAt` greater than or equal to the held
one replacing it. -/
def specNoteResolve (now : ℚ) (tag : ℤ) (clients : List (String × ClientState)) :
    Option NoteCandidate :=
  clients.foldl (specNoteStep now tag) none

/-- Well-formedness of a stored client entry: what every entry written by the
heartbeat endpoint satisfies (text capped, tick clamped into range). -/
def WFClient (c : ClientState) : Prop :=
  c.noteText.length ≤ CONTROLLER_NOTE_TEXT_MAX_LEN ∧
  0 ≤ c.noteFinalizeTick ∧ c.noteFinalizeTick ≤ 1000000000

instance (c : ClientState) : Decidable (WFClient c) := by
  unfold WFClient; infer_instance

/-! ## Helper lemmas -/

theorem ratAbs_eq_abs (x : ℚ) : ratAbs x = |x| := by
  unfold ratAbs
  rcases lt_or_le x 0 with h | h
  · rw [if_pos h, abs_of_neg h]
  · rw [if_neg (not_lt.mpr h), abs_of_nonneg h]

theorem alistLookup_insert_self {α β : Type} [DecidableEq α] (l : List (α × β)) (k : α) (v : β) :
    alistLookup (alistInsert l k v) k = some v := by
  induction l with
  | nil => simp [alistInsert, alistLookup]
  | cons h t ih =>
    obtain ⟨k', v'⟩ := h
    by_cases hk : k' = k
    · subst hk
      simp [alistInsert, alistLookup]
    · simp only [alistInsert, if_neg hk, alistLookup]
      exact ih


theorem alistLookup_insert_ne {α β : Type} [DecidableEq α] (l : List (α × β)) (k a : α) (v : β)
    (hk : k ≠ a) : alistLookup (alistInsert l k v) a = alistLookup l a := by
  induction l with
  | nil => simp [alistInsert, alistLookup, hk]
  | cons h t ih =>
    obtain ⟨k', v'⟩ := h
    by_cases hk' : k' = k
    · subst hk'
      simp [alistInsert, alistLookup, hk]
    · simp only [alistInsert, if_neg hk', alistLookup]
      by_cases ha : k' = a
      · rw [if_pos ha, if_pos ha]
      · rw [if_neg ha, if_neg ha]
        exact ih

theorem mem_alistInsert {α β : Type} [DecidableEq α] (l : List (α × β)) (k : α) (v : β)
    (q : α × β) (hq : q ∈ alistInsert l k v) : q = (k, v) ∨ q ∈ l := by
  induction l with
  | nil => simpa [alistInsert] using hq
  | cons h t ih =>
    obtain ⟨k', v'⟩ := h
    by_cases hk : k' = k
    · subst hk
      simp only [alistInsert, if_pos rfl] at hq
      rcases List.mem_cons.mp hq with h1 | h1
      · exact Or.inl h1
      · exact Or.inr (List.mem_cons_of_mem _ h1)
    · simp only [alistInsert, if_neg hk] at hq
      rcases List.mem_cons.mp hq with h1 | h1
      · exact Or.inr (h1 ▸ List.mem_cons_self _ _)
      · rcases ih h1 with h2 | h2
        · exact Or.inl h2
        · exact Or.inr (List.mem_cons_of_mem _ h2)

theorem sanitize_note_text_of_wf (s : String) (h : s.length ≤ CONTROLLER_NOTE_TEXT_MAX_LEN) :
    sanitize_controller_note_text (some s) = s := by
  simp [sanitize_controller_note_text, Nat.not_lt.mpr h]

theorem sanitize_tick_of_wf (n : ℤ) (h0 : 0 ≤ n) (h1 : n ≤ 1000000000) :
    sanitize_controller_note_finalize_tick (some n) = n := by
  simp [sanitize_controller_note_finalize_tick, Int.not_lt.mpr h0, Int.not_lt.mpr h1]

theorem sanitize_trigger_of_range (t : ℤ) (h1 : 1 ≤ t) (h2 : t ≤ 9999) :
    sanitize_controller_trigger_tag_id (some t) = some t := by
  have : ¬(t < 1 ∨ 9999 < t) := by omega
  simp [sanitize_controller_trigger_tag_id, this]

/-! ## C9: MJPEG subscriber counter -/

theorem streamRun_nonneg (evs : List StreamEvent) : ∀ c : ℤ, 0 ≤ c → 0 ≤ streamRun c evs := by
  induction evs with
  | nil => intro c hc; simpa [streamRun] using hc
  | cons e t ih =>
    intro c hc
    have hstep : 0 ≤ streamEventStep c e := by
      cases e with
      | conn => simp [streamEventStep, streamConnect]; omega
      | disc => simp [streamEventStep, streamDisconnect]
    simpa [streamRun, List.foldl_cons] using ih (streamEventStep c e) hstep

theorem streamRun_balanced (evs : List StreamEvent) :
    ∀ c : ℤ, 0 ≤ c → balancedFrom c evs = true →
      streamRun c evs = c + countConn evs - countDisc evs := by
  induction evs with
  | nil => intro c _ _; simp [streamRun, countConn, countDisc]
  | cons e t ih =>
    intro c hc hb
    cases e with
    | conn =>
      have hb' : balancedFrom (c + 1) t = true := by simpa [balancedFrom] using hb
      have := ih (c + 1) (by omega) hb'
      simp only [streamRun, List.foldl_cons, streamEventStep, streamConnect] at *
      rw [this, countConn, countDisc]
      ring
    | disc =>
      have hb' : (1 ≤ c) ∧ balancedFrom (c - 1) t = true := by
        simpa [balancedFrom, Bool.and_eq_true] using hb
      have hmax : max (0 : ℤ) (c - 1) = c - 1 := max_eq_right (by omega)
      have := ih (c - 1) (by omega) hb'.2
      simp only [streamRun, List.foldl_cons, streamEventStep, streamDisconnect] at *
      rw [hmax, this, countConn, countDisc]
      ring

/-- C9: the MJPEG subscriber count is incremented once per connect and
decremented once (floored at zero) on every exit path, so over any event trace
starting from a nonnegative count it stays nonnegative, and over any
prefix-balanced trace (every disconnect preceded by its connect) it equals
connects minus disconnects — in particular after N connections have all opened
and closed it returns to exactly 0. -/
theorem stream_subscriber_count_properties (evs : List StreamEvent) (c : ℤ) :
    (0 ≤ c → 0 ≤ streamRun c evs) ∧
    (balancedFrom 0 evs = true → streamRun 0 evs = countConn evs - countDisc evs) ∧
    (balancedFrom 0 evs = true → countConn evs = countDisc evs → streamRun 0 evs = 0) := by
  refine ⟨streamRun_nonneg evs c, ?_, ?_⟩
  · intro hb
    have := streamRun_balanced evs 0 le_rfl hb
    omega
  · intro hb he
    have := streamRun_balanced evs 0 le_rfl hb
    omega

/-- Witness for C9 at a concrete trace of two interleaved connections. -/
theorem stream_subscriber_count_properties_witness :
    streamRun 0 [StreamEvent.conn, StreamEvent.conn, StreamEvent.disc, StreamEvent.disc] = 0 :=
  (stream_subscriber_count_properties
      [StreamEvent.conn, StreamEvent.conn, StreamEvent.disc, StreamEvent.disc] 0).2.2
    (by decide) (by decide)

/-! ## C1: DetectionSet sequence behaviour -/

/-- Every pass either publishes detections or records an error, from an
intermediate state with the same published `seq` and `error`. -/
theorem apriltagStep_cases (ctx : DetectionCtx) (s : TagLoopState) (inp : StepInput) :
    (∃ dets s', apriltagStep ctx s inp = publishDetections ctx s' dets ∧
       s'.seq = s.seq ∧ s'.error = s.error) ∨
    (∃ msg s', apriltagStep ctx s inp = recordDetectionError s' msg ∧
       s'.seq = s.seq ∧ s'.error = s.error) := by
  by_cases hp : s.poseEnabled = true
  · rcases hpr : inp.poseResult with dets | msg
    · simp only [apriltagStep, hp, if_true, hpr]
      exact Or.inl ⟨dets, s, rfl, rfl, rfl⟩
    · by_cases ha : is_apriltag_pose_ambiguity_error msg = true
      · rcases hd : inp.det2dResult with dets2 | msg2
        · simp only [apriltagStep, hp, if_true, hpr, ha, hd]
          exact Or.inl ⟨dets2, _, rfl, rfl, rfl⟩
        · simp only [apriltagStep, hp, if_true, hpr, ha, hd]
          exact Or.inr ⟨msg2, _, rfl, rfl, rfl⟩
      · simp only [apriltagStep, hp, if_true, hpr, ha, if_false, Bool.false_eq_true]
        exact Or.inr ⟨msg, s, rfl, rfl, rfl⟩
  · simp only [apriltagStep, hp, if_false, Bool.false_eq_true]
    rcases hd : inp.det2dResult with dets | msg
    · simp only [hd]
      exact Or.inl ⟨dets, s, rfl, rfl, rfl⟩
    · simp only [hd]
      exact Or.inr ⟨msg, s, rfl, rfl, rfl⟩

def c1ctx : DetectionCtx :=
  { cameraParams := none
    penTipOffset := (0, 0, 0)
    surfacePlane := none
    touchThreshold := 9 / 500 }

def c1det : RawDetection :=
  { tagId := 3
    corners := [(0, 0), (1, 0), (1, 1), (0, 1)]
    center := (1 / 2, 1 / 2)
    decisionMargin := 50
    poseT := none
    poseR := none }

def c1state : TagLoopState :=
  { poseEnabled := false
    warned := false
    warnCount := 0
    lastTags := [map_detection c1ctx c1det]
    seq := 5
    error := none }

def c1input : StepInput :=
  { poseResult := DetectOutcome.ok []
    det2dResult := DetectOutcome.ok [c1det] }

/-- C1 counterexample: a successful pass whose published detections and error
are identical to the previous pass still advances `latest_apriltag_seq` — the
sequence is not gated on a change of the results. -/
theorem apriltag_seq_advances_on_identical_publish :
    (apriltagStep c1ctx c1state c1input).lastTags = c1state.lastTags ∧
    (apriltagStep c1ctx c1state c1input).error = c1state.error ∧
    (apriltagStep c1ctx c1state c1input).seq = c1state.seq + 1 :=
  ⟨rfl, rfl, rfl⟩

/-- C1 amended: the DetectionSet sequence advances on every pass that publishes
detections — identical results included — while a pass that records an error
advances it exactly when the message differs from the stored error. -/
theorem apriltag_seq_advance_characterization (ctx : DetectionCtx) (s : TagLoopState)
    (inp : StepInput) :
    ((apriltagStep ctx s inp).error = none → (apriltagStep ctx s inp).seq = s.seq + 1) ∧
    (∀ m, (apriltagStep ctx s inp).error = some m →
      (apriltagStep ctx s inp).seq = if s.error = some m then s.seq else s.seq + 1) := by
  rcases apriltagStep_cases ctx s inp with ⟨dets, s', heq, hseq, herr⟩ | ⟨msg, s', heq, hseq, herr⟩
  · constructor
    · intro _
      rw [heq]
      simp [publishDetections, hseq]
    · intro m hm
      rw [heq] at hm
      simp [publishDetections] at hm
  · constructor
    · intro hnone
      rw [heq] at hnone
      simp [recordDetectionError] at hnone
    · intro m hm
      rw [heq] at hm ⊢
      simp only [recordDetectionError] at hm ⊢
      cases hm
      rw [hseq, herr]

/-- Witness for C1's amended theorem at a concrete publishing pass. -/
theorem apriltag_seq_advance_characterization_witness :
    (apriltagStep c1ctx c1state c1input).seq = c1state.seq + 1 :=
  (apriltag_seq_advance_characterization c1ctx c1state c1input).1 rfl

/-! ## C4: touch distance and isTouch -/

def c4ctx : DetectionCtx :=
  { cameraParams := none
    penTipOffset := (0, 0, 0)
    surfacePlane := some { normal := (0, 0, 1), d := 0, numPoints := 4 }
    touchThreshold := 9 / 500 }

def c4det : RawDetection :=
  { tagId := 1
    corners := []
    center := (0, 0)
    decisionMargin := 1
    poseT := some (0, 0, 3 / 25000)
    poseR := none }

/-- C4 counterexample: with the plane z = 0 and a pose at z = 0.00012 (no tip),
the reported `surfaceDistance` is the rounded 0.0001, not the exact
`|normal . p + d| = 0.00012`. -/
theorem touch_distance_reported_rounded :
    c4det.poseT = some (0, 0, 3 / 25000) ∧
    (map_detection c4ctx c4det).tipPose = none ∧
    ratAbs (vecDot (0, 0, 1) (0, 0, 3 / 25000) + 0) = 3 / 25000 ∧
    (map_detection c4ctx c4det).surfaceDistance = some (1 / 10000) ∧
    (map_detection c4ctx c4det).surfaceDistance ≠
      some (ratAbs (vecDot (0, 0, 1) (0, 0, 3 / 25000) + 0)) := by
  refine ⟨rfl, rfl, ?_, ?_, ?_⟩
  · norm_num [ratAbs, vecDot]
  · norm_num [map_detection, c4ctx, c4det, ratAbs, vecDot, roundTo4, roundHalfToEven]
  · norm_num [map_detection, c4ctx, c4det, ratAbs, vecDot, roundTo4, roundHalfToEven]

/-- C4 amended: for a detection with a valid pose and a calibrated plane, the
reported `surfaceDistance` is `|normal . p + d|` rounded to 4 decimal places,
where `p` is the computed tip position if one exists and otherwise the pose
translation, and `isTouch` holds exactly when the unrounded distance is at most
the configured threshold. -/
theorem touch_distance_and_isTouch (ctx : DetectionCtx) (det : RawDetection) (t : Vec3)
    (n : Vec3) (d : ℚ) (k : Nat) (hp : det.poseT = some t)
    (hpl : ctx.surfacePlane = some { normal := n, d := d, numPoints := k }) :
    (map_detection ctx det).surfaceDistance =
      some (roundTo4 (ratAbs (vecDot n (touchRefPoint (map_detection ctx det) t) + d))) ∧
    (map_detection ctx det).isTouch =
      some (decide (ratAbs (vecDot n (touchRefPoint (map_detection ctx det) t) + d) ≤
        ctx.touchThreshold)) := by
  rcases hr : det.poseR with _ | r
  · constructor <;>
      simp [map_detection, touchRefPoint, hp, hpl, hr]
  · constructor <;>
      simp [map_detection, touchRefPoint, hp, hpl, hr]

/-- Witness for C4's amended theorem at a concrete pose and plane. -/
theorem touch_distance_and_isTouch_witness :
    (map_detection c4ctx c4det).surfaceDistance =
      some (roundTo4 (ratAbs (vecDot (0, 0, 1)
        (touchRefPoint (map_detection c4ctx c4det) (0, 0, 3 / 25000)) + 0))) ∧
    (map_detection c4ctx c4det).isTouch =
      some (decide (ratAbs (vecDot (0, 0, 1)
        (touchRefPoint (map_detection c4ctx c4det) (0, 0, 3 / 25000)) + 0) ≤
        c4ctx.touchThreshold)) :=
  touch_distance_and_isTouch c4ctx c4det (0, 0, 3 / 25000) (0, 0, 1) 0 4 rfl rfl

/-! ## C5: pose-ambiguity downgrade -/

/-- With pose estimation disabled, a pass never touches the pose flag, the
warning flag, or the warning count. -/
theorem apriltagStep_disabled_fields (ctx : DetectionCtx) (s : TagLoopState) (inp : StepInput)
    (h : s.poseEnabled = false) :
    (apriltagStep ctx s inp).poseEnabled = false ∧
    (apriltagStep ctx s inp).warned = s.warned ∧
    (apriltagStep ctx s inp).warnCount = s.warnCount := by
  have hne : ¬s.poseEnabled = true := by simp [h]
  rcases hd : inp.det2dResult with dets | msg <;>
    simp [apriltagStep, hne, hd, publishDetections, recordDetectionError, h]

/-- With pose estimation disabled, a pass depends only on the 2-D-only detect
outcome: the pose-estimating detector is never consulted again. -/
theorem apriltagStep_disabled_ignores_pose (ctx : DetectionCtx) (s : TagLoopState)
    (i j : StepInput) (h : s.poseEnabled = false) (hd : i.det2dResult = j.det2dResult) :
    apriltagStep ctx s i = apriltagStep ctx s j := by
  have hne : ¬s.poseEnabled = true := by simp [h]
  simp only [apriltagStep, if_neg hne, hd]

/-- With pose estimation disabled, the error a pass publishes is `none` or the
2-D detect failure of that very pass. -/
theorem apriltagStep_disabled_error (ctx : DetectionCtx) (s : TagLoopState) (inp : StepInput)
    (h : s.poseEnabled = false) (hd2 : det2dNonAmbiguous inp = true) :
    errorNonAmbiguous (apriltagStep ctx s inp) = true := by
  have hne : ¬s.poseEnabled = true := by simp [h]
  rcases hd : inp.det2dResult with dets | msg
  · simp [apriltagStep, hne, hd, publishDetections, errorNonAmbiguous]
  · simp only [det2dNonAmbiguous, hd, Bool.not_eq_true'] at hd2
    simp [apriltagStep, hne, hd, recordDetectionError, errorNonAmbiguous, hd2]

theorem apriltagRunStates_disabled (ctx : DetectionCtx) :
    ∀ (inps : List StepInput) (s : TagLoopState), s.poseEnabled = false →
      ∀ st ∈ apriltagRunStates ctx s inps,
        st.poseEnabled = false ∧ st.warnCount = s.warnCount := by
  intro inps
  induction inps with
  | nil =>
    intro s hs st hst
    simp only [apriltagRunStates, List.mem_singleton] at hst
    subst hst; exact ⟨hs, rfl⟩
  | cons i t ih =>
    intro s hs st hst
    simp only [apriltagRunStates, List.mem_cons] at hst
    rcases hst with rfl | hst
    · exact ⟨hs, rfl⟩
    · obtain ⟨hp, hw, hc⟩ := apriltagStep_disabled_fields ctx s i hs
      obtain ⟨h1, h2⟩ := ih (apriltagStep ctx s i) hp st hst
      exact ⟨h1, h2.trans hc⟩

theorem apriltagRunStates_error_nonamb (ctx : DetectionCtx) :
    ∀ (inps : List StepInput) (s : TagLoopState), s.poseEnabled = false →
      errorNonAmbiguous s = true → (∀ i ∈ inps, det2dNonAmbiguous i = true) →
      ∀ st ∈ apriltagRunStates ctx s inps, errorNonAmbiguous st = true := by
  intro inps
  induction inps with
  | nil =>
    intro s _ hse _ st hst
    simp only [apriltagRunStates, List.mem_singleton] at hst
    subst hst; exact hse
  | cons i t ih =>
    intro s hs hse hall st hst
    simp only [apriltagRunStates, List.mem_cons] at hst
    rcases hst with rfl | hst
    · exact hse
    · have hp := (apriltagStep_disabled_fields ctx s i hs).1
      have herr := apriltagStep_disabled_error ctx s i hs (hall i (List.mem_cons_self i t))
      exact ih (apriltagStep ctx s i) hp herr (fun j hj => hall j (List.mem_cons_of_mem i hj)) st hst

/-- C5: if the pose solver raises the ambiguous-minima failure on a pass, the
loop permanently disables pose estimation (and a pass with pose disabled never
consults the pose result again), prints the warning exactly once, completes
that pass and all later passes in 2-D-only mode, and never publishes that
failure in the error field. -/
theorem pose_ambiguity_downgrade (ctx : DetectionCtx) (s : TagLoopState) (msg : String)
    (inp : StepInput) (rest : List StepInput)
    (hpose : s.poseEnabled = true) (hw : s.warned = false)
    (hfail : inp.poseResult = DetectOutcome.fail msg)
    (hamb : is_apriltag_pose_ambiguity_error msg = true)
    (hd2 : det2dNonAmbiguous inp = true)
    (hdrest : ∀ i ∈ rest, det2dNonAmbiguous i = true) :
    (apriltagStep ctx s inp).poseEnabled = false ∧
    (∀ st ∈ apriltagRunStates ctx (apriltagStep ctx s inp) rest, st.poseEnabled = false) ∧
    (apriltagStep ctx s inp).warnCount = s.warnCount + 1 ∧
    (∀ st ∈ apriltagRunStates ctx (apriltagStep ctx s inp) rest,
      st.warnCount = s.warnCount + 1) ∧
    (∀ dets, inp.det2dResult = DetectOutcome.ok dets →
      (apriltagStep ctx s inp).lastTags = dets.map (map_detection ctx) ∧
      (apriltagStep ctx s inp).error = none) ∧
    (∀ st ∈ apriltagRunStates ctx (apriltagStep ctx s inp) rest, errorNonAmbiguous st = true) ∧
    (∀ s' i j, s'.poseEnabled = false → i.det2dResult = j.det2dResult →
      apriltagStep ctx s' i = apriltagStep ctx s' j) := by
  have hs1p : (apriltagStep ctx s inp).poseEnabled = false := by
    rcases hd : inp.det2dResult with dets | m2 <;>
      simp [apriltagStep, hpose, hfail, hamb, hd, publishDetections, recordDetectionError]
  have hs1c : (apriltagStep ctx s inp).warnCount = s.warnCount + 1 := by
    rcases hd : inp.det2dResult with dets | m2 <;>
      simp [apriltagStep, hpose, hfail, hamb, hd, hw, publishDetections, recordDetectionError]
  have hs1e : errorNonAmbiguous (apriltagStep ctx s inp) = true := by
    rcases hd : inp.det2dResult with dets | m2
    · simp [apriltagStep, hpose, hfail, hamb, hd, publishDetections, errorNonAmbiguous]
    · simp only [det2dNonAmbiguous, hd, Bool.not_eq_true'] at hd2
      simp [apriltagStep, hpose, hfail, hamb, hd, recordDetectionError, errorNonAmbiguous, hd2]
  refine ⟨hs1p, ?_, hs1c, ?_, ?_, ?_, ?_⟩
  · intro st hst
    exact (apriltagRunStates_disabled ctx rest _ hs1p st hst).1
  · intro st hst
    have := (apriltagRunStates_disabled ctx rest _ hs1p st hst).2
    rw [this, hs1c]
  · intro dets hd
    constructor <;> simp [apriltagStep, hpose, hfail, hamb, hd, publishDetections]
  · exact apriltagRunStates_error_nonamb ctx rest _ hs1p hs1e hdrest
  · intro s' i j h hij
    exact apriltagStep_disabled_ignores_pose ctx s' i j h hij

def c5state : TagLoopState :=
  { poseEnabled := true
    warned := false
    warnCount := 0
    lastTags := []
    seq := 0
    error := none }

def c5input : StepInput :=
  { poseResult := DetectOutcome.fail "More than one new minima found."
    det2dResult := DetectOutcome.ok [] }

def c5rest : List StepInput :=
  [{ poseResult := DetectOutcome.ok [], det2dResult := DetectOutcome.ok [c1det] }]

/-- Witness for C5 at a concrete ambiguity failure followed by one more pass. -/
theorem pose_ambiguity_downgrade_witness :
    (apriltagStep c1ctx c5state c5input).poseEnabled = false ∧
    (apriltagStep c1ctx c5state c5input).warnCount = 1 :=
  ⟨(pose_ambiguity_downgrade c1ctx c5state "More than one new minima found." c5input c5rest
      rfl rfl rfl (by decide) rfl (by decide)).1,
   (pose_ambiguity_downgrade c1ctx c5state "More than one new minima found." c5input c5rest
      rfl rfl rfl (by decide) rfl (by decide)).2.2.1⟩

/-! ## Snapshot scan decomposition -/

/-- The TTL test of the snapshot scan (`app.py` line 185). -/
def isExpiredAt (now : ℚ) (q : String × ClientState) : Bool :=
  decide (CONTROLLER_HEARTBEAT_TTL_SEC < now - q.2.updatedAt)

theorem scan_fst (now : ℚ) :
    ∀ (l : List (String × ClientState)) (s : List String × LiveScan),
      (l.foldl (snapshotScanStep now) s).1 =
        s.1 ++ (l.filter (isExpiredAt now)).map Prod.fst := by
  intro l
  induction l with
  | nil => intro s; simp
  | cons q t ih =>
    intro s
    by_cases hq : CONTROLLER_HEARTBEAT_TTL_SEC < now - q.2.updatedAt
    · have hqe : isExpiredAt now q = true := by simp [isExpiredAt, hq]
      simp only [List.foldl_cons, snapshotScanStep, if_pos hq, List.filter_cons, hqe,
        if_true, List.map_cons]
      rw [ih]
      simp [List.append_assoc]
    · have hqe : ¬isExpiredAt now q = true := by simp [isExpiredAt, hq]
      simp only [List.foldl_cons, snapshotScanStep, if_neg hq, List.filter_cons]
      rw [ih]
      simp [hqe]

theorem scan_snd (now : ℚ) :
    ∀ (l : List (String × ClientState)) (s : List String × LiveScan),
      (l.foldl (snapshotScanStep now) s).2 =
        ((l.filter (fun q => !isExpiredAt now q)).map Prod.snd).foldl scanLiveStep s.2 := by
  intro l
  induction l with
  | nil => intro s; simp
  | cons q t ih =>
    intro s
    by_cases hq : CONTROLLER_HEARTBEAT_TTL_SEC < now - q.2.updatedAt
    · have hqe : (!isExpiredAt now q) = false := by simp [isExpiredAt, hq]
      simp only [List.foldl_cons, snapshotScanStep, if_pos hq, List.filter_cons, hqe]
      rw [ih]
      simp
    · have hqe : (!isExpiredAt now q) = true := by simp [isExpiredAt, hq]
      simp only [List.foldl_cons, snapshotScanStep, if_neg hq, List.filter_cons, hqe,
        if_true, List.map_cons, List.foldl_cons]
      rw [ih]

theorem scanNoteUpdate_fields (lv : LiveScan) (trig : ℤ) (c : ClientState) :
    (scanNoteUpdate lv trig c).activeClients = lv.activeClients ∧
    (scanNoteUpdate lv trig c).lastUpdatedAt = lv.lastUpdatedAt ∧
    (scanNoteUpdate lv trig c).toolByTrigger = lv.toolByTrigger := by
  rcases hl : alistLookup lv.noteByTrigger trig with _ | prev <;>
    simp only [scanNoteUpdate, hl] <;> split_ifs <;> simp

theorem scanToolUpdate_fields (lv : LiveScan) (trig : ℤ) (c : ClientState) :
    (scanToolUpdate lv trig c).activeClients = lv.activeClients ∧
    (scanToolUpdate lv trig c).lastUpdatedAt = lv.lastUpdatedAt ∧
    (scanToolUpdate lv trig c).noteByTrigger = lv.noteByTrigger := by
  rcases hl : alistLookup lv.toolByTrigger trig with _ | prev <;>
    simp only [scanToolUpdate, hl] <;> split_ifs <;> simp

theorem scanLiveStep_activeClients (lv : LiveScan) (c : ClientState) :
    (scanLiveStep lv c).activeClients = lv.activeClients + 1 := by
  rcases ht : sanitize_controller_trigger_tag_id c.triggerTagId with _ | trig
  · simp [scanLiveStep, ht]
  · simp only [scanLiveStep, ht]
    rw [(scanToolUpdate_fields _ _ _).1, (scanNoteUpdate_fields _ _ _).1]

theorem foldl_scanLiveStep_activeClients :
    ∀ (cs : List ClientState) (lv : LiveScan),
      (cs.foldl scanLiveStep lv).activeClients = lv.activeClients + cs.length := by
  intro cs
  induction cs with
  | nil => intro lv; simp
  | cons c t ih =>
    intro lv
    simp only [List.foldl_cons, List.length_cons, ih, scanLiveStep_activeClients]
    omega

/-- If no stored entry has expired, the snapshot purges nothing: the sequence
and the client dict are unchanged. -/
theorem get_controller_state_snapshot_no_expired (m : ControllerModel) (now : ℚ)
    (h : ∀ q ∈ m.clients, now - q.2.updatedAt ≤ CONTROLLER_HEARTBEAT_TTL_SEC) :
    (get_controller_state_snapshot m now).2.seq = m.seq ∧
    (get_controller_state_snapshot m now).2.clients = m.clients ∧
    (get_controller_state_snapshot m now).1.seq = m.seq := by
  have hfilter : m.clients.filter (isExpiredAt now) = [] := by
    rw [List.filter_eq_nil_iff]
    intro q hq
    simp [isExpiredAt, not_lt.mpr (h q hq)]
  have hfst : (m.clients.foldl (snapshotScanStep now) controllerScanInit).1 = [] := by
    rw [scan_fst now m.clients controllerScanInit, hfilter]
    rfl
  refine ⟨?_, ?_, ?_⟩ <;>
    simp [get_controller_state_snapshot, hfst]

/-- Closed form of a heartbeat upsert that passes validation. -/
theorem controller_heartbeat_upsert_accepted (p : HeartbeatPayload) (m : ControllerModel)
    (now : ℚ) (cid : String) (hcid : sanitize_controller_client_id p.clientId = some cid)
    (htool : controllerSupportedTools.contains (controllerToolOf p.tool) = true)
    (htrig : p.active = true → sanitize_controller_trigger_tag_id p.triggerTagId ≠ none) :
    controller_heartbeat_upsert (some p) m now =
      (UpsertOutcome.accepted cid (hbNextState p now)
         (hbChanged (alistLookup m.clients cid) (hbNextState p now)),
       { clients := alistInsert m.clients cid (hbNextState p now),
         seq := if hbChanged (alistLookup m.clients cid) (hbNextState p now) = true
                then m.seq + 1 else m.seq }) := by
  have hc1 : ¬controllerSupportedTools.contains (controllerToolOf p.tool) = false := by
    rw [htool]
    simp
  have hc2 : ¬(p.active = true ∧ sanitize_controller_trigger_tag_id p.triggerTagId = none) := by
    rintro ⟨ha, hn⟩
    exact htrig ha hn
  simp only [controller_heartbeat_upsert, hcid, if_neg hc1, if_neg hc2]

/-! ## C6: heartbeat validation -/

/-- C6: a heartbeat whose clientId fails the token pattern, whose tool is not
in the supported set, or which is active without a valid trigger tag is
rejected with a 400 response carrying an error code, and neither the client
map nor the state sequence is mutated. -/
theorem heartbeat_validation_rejects (payload : Option HeartbeatPayload) (m : ControllerModel)
    (now : ℚ)
    (h : payload = none ∨ ∃ p, payload = some p ∧
      (sanitize_controller_client_id p.clientId = none ∨
       controllerSupportedTools.contains (controllerToolOf p.tool) = false ∨
       (p.active = true ∧ sanitize_controller_trigger_tag_id p.triggerTagId = none))) :
    heartbeatStatus (api_controller_heartbeat payload m now).1 = 400 ∧
    heartbeatErrorCode (api_controller_heartbeat payload m now).1 ≠ none ∧
    (api_controller_heartbeat payload m now).2 = m := by
  have hrej : ∃ code, controller_heartbeat_upsert payload m now =
      (UpsertOutcome.rejected code, m) := by
    rcases h with rfl | ⟨p, rfl, hcase⟩
    · exact ⟨"invalid_json", rfl⟩
    · rcases hcid : sanitize_controller_client_id p.clientId with _ | cid
      · exact ⟨"invalid_client_id", by simp [controller_heartbeat_upsert, hcid]⟩
      · rcases hcase with hc | htool | htrig
        · rw [hcid] at hc
          cases hc
        · refine ⟨"invalid_tool", ?_⟩
          simp only [controller_heartbeat_upsert, hcid]
          rw [if_pos htool]
        · by_cases htool2 : controllerSupportedTools.contains (controllerToolOf p.tool) = false
          · refine ⟨"invalid_tool", ?_⟩
            simp only [controller_heartbeat_upsert, hcid]
            rw [if_pos htool2]
          · refine ⟨"invalid_trigger_tag_id", ?_⟩
            simp only [controller_heartbeat_upsert, hcid]
            rw [if_neg htool2, if_pos htrig]
  obtain ⟨code, hc⟩ := hrej
  simp [api_controller_heartbeat, hc, heartbeatStatus, heartbeatErrorCode]

def c6model : ControllerModel := { clients := [], seq := 0 }

/-- Witness for C6 at a request whose body is not a JSON object. -/
theorem heartbeat_validation_rejects_witness :
    heartbeatStatus (api_controller_heartbeat none c6model 0).1 = 400 ∧
    heartbeatErrorCode (api_controller_heartbeat none c6model 0).1 ≠ none ∧
    (api_controller_heartbeat none c6model 0).2 = c6model :=
  heartbeat_validation_rejects none c6model 0 (Or.inl rfl)

/-! ## C10: note fields are sanitized, never rejected -/

def upsertNextState : UpsertOutcome → Option ClientState
  | UpsertOutcome.accepted _ st _ => some st
  | UpsertOutcome.rejected _ => none

/-- C10: with a valid clientId, tool and trigger condition, the note fields
never cause rejection: the heartbeat answers 200 for every `noteText` and
`noteFinalizeTick` value, the stored entry holds the sanitized values, an
over-long text is truncated to 500 characters, and a malformed, negative or
over-large tick is clamped to `[0, 1000000000]`. -/
theorem heartbeat_note_fields_sanitized (p : HeartbeatPayload) (m : ControllerModel)
    (now : ℚ) (cid : String)
    (hcid : sanitize_controller_client_id p.clientId = some cid)
    (htool : controllerSupportedTools.contains (controllerToolOf p.tool) = true)
    (htrig : p.active = true → sanitize_controller_trigger_tag_id p.triggerTagId ≠ none) :
    heartbeatStatus (api_controller_heartbeat (some p) m now).1 = 200 ∧
    (∃ st, upsertNextState (controller_heartbeat_upsert (some p) m now).1 = some st ∧
       st.noteText = sanitize_controller_note_text p.noteText ∧
       st.noteFinalizeTick = sanitize_controller_note_finalize_tick p.noteFinalizeTick ∧
       alistLookup (controller_heartbeat_upsert (some p) m now).2.clients cid = some st) ∧
    (∀ s : String, CONTROLLER_NOTE_TEXT_MAX_LEN < s.length →
       sanitize_controller_note_text (some s) =
         String.mk (s.toList.take CONTROLLER_NOTE_TEXT_MAX_LEN)) ∧
    sanitize_controller_note_text none = "" ∧
    sanitize_controller_note_finalize_tick none = 0 ∧
    (∀ n : ℤ, n < 0 → sanitize_controller_note_finalize_tick (some n) = 0) ∧
    (∀ n : ℤ, 1000000000 < n →
       sanitize_controller_note_finalize_tick (some n) = 1000000000) := by
  have hup := controller_heartbeat_upsert_accepted p m now cid hcid htool htrig
  refine ⟨?_, ?_, ?_, rfl, rfl, ?_, ?_⟩
  · simp [api_controller_heartbeat, hup, heartbeatStatus]
  · refine ⟨hbNextState p now, ?_, rfl, rfl, ?_⟩
    · rw [hup]
      rfl
    · rw [hup]
      exact alistLookup_insert_self m.clients cid (hbNextState p now)
  · intro s hs
    simp [sanitize_controller_note_text, hs]
  · intro n hn
    simp [sanitize_controller_note_finalize_tick, hn]
  · intro n hn
    have : ¬n < 0 := by omega
    simp [sanitize_controller_note_finalize_tick, this, hn]

def c10payload : HeartbeatPayload :=
  { clientId := some "pen-1"
    tool := some "note"
    active := false
    triggerTagId := some 7
    noteText := some "hello"
    noteSessionActive := true
    noteFinalizeTick := none }

/-- Witness for C10 at a concrete valid heartbeat carrying note data. -/
theorem heartbeat_note_fields_sanitized_witness :
    heartbeatStatus (api_controller_heartbeat (some c10payload) c6model 0).1 = 200 ∧
    (∃ st, upsertNextState (controller_heartbeat_upsert (some c10payload) c6model 0).1 =
        some st ∧
      st.noteText = sanitize_controller_note_text c10payload.noteText ∧
      st.noteFinalizeTick = sanitize_controller_note_finalize_tick c10payload.noteFinalizeTick ∧
      alistLookup (controller_heartbeat_upsert (some c10payload) c6model 0).2.clients "pen-1" =
        some st) :=
  ⟨(heartbeat_note_fields_sanitized c10payload c6model 0 "pen-1" (by decide) (by decide)
      (by decide)).1,
   (heartbeat_note_fields_sanitized c10payload c6model 0 "pen-1" (by decide) (by decide)
      (by decide)).2.1⟩

/-! ## C7: redundant heartbeats do not advance the sequence -/

/-- C7: for an accepted heartbeat, when no stored entry is TTL-expired at
`now`, the controller state sequence is unchanged exactly when all six
reconciled fields (active, tool, triggerTagId, noteText, noteSessionActive,
noteFinalizeTick) equal the previously stored entry's; it advances when any
differs. -/
theorem heartbeat_seq_advance_iff_changed (p : HeartbeatPayload) (m : ControllerModel)
    (now : ℚ) (cid : String)
    (hcid : sanitize_controller_client_id p.clientId = some cid)
    (htool : controllerSupportedTools.contains (controllerToolOf p.tool) = true)
    (htrig : p.active = true → sanitize_controller_trigger_tag_id p.triggerTagId ≠ none)
    (hlive : ∀ q ∈ m.clients, now - q.2.updatedAt ≤ CONTROLLER_HEARTBEAT_TTL_SEC) :
    (api_controller_heartbeat (some p) m now).2.seq = m.seq ↔
      (prevActiveOf (alistLookup m.clients cid) = p.active ∧
       prevToolOf (alistLookup m.clients cid) = controllerToolOf p.tool ∧
       prevTrigOf (alistLookup m.clients cid) =
         sanitize_controller_trigger_tag_id p.triggerTagId ∧
       prevNoteTextOf (alistLookup m.clients cid) = sanitize_controller_note_text p.noteText ∧
       prevNsaOf (alistLookup m.clients cid) = p.noteSessionActive ∧
       prevTickOf (alistLookup m.clients cid) =
         sanitize_controller_note_finalize_tick p.noteFinalizeTick) := by
  have hup := controller_heartbeat_upsert_accepted p m now cid hcid htool htrig
  have hlive' : ∀ q ∈ (alistInsert m.clients cid (hbNextState p now)),
      now - q.2.updatedAt ≤ CONTROLLER_HEARTBEAT_TTL_SEC := by
    intro q hq
    rcases mem_alistInsert m.clients cid (hbNextState p now) q hq with rfl | hq'
    · show now - (hbNextState p now).updatedAt ≤ CONTROLLER_HEARTBEAT_TTL_SEC
      simp only [hbNextState]
      norm_num [CONTROLLER_HEARTBEAT_TTL_SEC]
    · exact hlive q hq'
  have hmain : (api_controller_heartbeat (some p) m now).2.seq =
      (if hbChanged (alistLookup m.clients cid) (hbNextState p now) = true
       then m.seq + 1 else m.seq) := by
    have hsnap := (get_controller_state_snapshot_no_expired
      { clients := alistInsert m.clients cid (hbNextState p now),
        seq := if hbChanged (alistLookup m.clients cid) (hbNextState p now) = true
               then m.seq + 1 else m.seq } now hlive').1
    simp only [api_controller_heartbeat, hup]
    exact hsnap
  rw [hmain]
  by_cases hcond : (prevActiveOf (alistLookup m.clients cid) = p.active ∧
      prevToolOf (alistLookup m.clients cid) = controllerToolOf p.tool ∧
      prevTrigOf (alistLookup m.clients cid) =
        sanitize_controller_trigger_tag_id p.triggerTagId ∧
      prevNoteTextOf (alistLookup m.clients cid) = sanitize_controller_note_text p.noteText ∧
      prevNsaOf (alistLookup m.clients cid) = p.noteSessionActive ∧
      prevTickOf (alistLookup m.clients cid) =
        sanitize_controller_note_finalize_tick p.noteFinalizeTick)
  · have hch : hbChanged (alistLookup m.clients cid) (hbNextState p now) = false := by
      simp only [hbChanged, hbNextState]
      exact if_pos hcond
    rw [hch]
    simp [hcond]
  · have hch : hbChanged (alistLookup m.clients cid) (hbNextState p now) = true := by
      simp only [hbChanged, hbNextState]
      exact if_neg hcond
    rw [hch]
    exact iff_of_false (by simp) hcond

def c7payload : HeartbeatPayload :=
  { clientId := some "a"
    tool := some "draw"
    active := false
    triggerTagId := none
    noteText := none
    noteSessionActive := false
    noteFinalizeTick := none }

/-- Witness for C7 at a concrete heartbeat against an empty client map. -/
theorem heartbeat_seq_advance_iff_changed_witness :
    (api_controller_heartbeat (some c7payload) c6model 0).2.seq = c6model.seq ↔
      (prevActiveOf (alistLookup c6model.clients "a") = c7payload.active ∧
       prevToolOf (alistLookup c6model.clients "a") = controllerToolOf c7payload.tool ∧
       prevTrigOf (alistLookup c6model.clients "a") =
         sanitize_controller_trigger_tag_id c7payload.triggerTagId ∧
       prevNoteTextOf (alistLookup c6model.clients "a") =
         sanitize_controller_note_text c7payload.noteText ∧
       prevNsaOf (alistLookup c6model.clients "a") = c7payload.noteSessionActive ∧
       prevTickOf (alistLookup c6model.clients "a") =
         sanitize_controller_note_finalize_tick c7payload.noteFinalizeTick) :=
  heartbeat_seq_advance_iff_changed c7payload c6model 0 "a" (by decide) (by decide) (by decide)
    (by simp [c6model])

/-! ## C2: TTL expiry in snapshots -/

/-- C2: every entry older than the TTL at snapshot time is removed from the
client map and excluded from the snapshot — `activeClients` counts only live
entries and the tool/note resolutions are those computed from the live entries
alone — and since at least one entry was removed, the state sequence is
incremented even though no heartbeat caused it. -/
theorem controller_snapshot_ttl_expiry (m : ControllerModel) (now : ℚ) (cid : String)
    (st : ClientState) (hmem : (cid, st) ∈ m.clients)
    (hexp : CONTROLLER_HEARTBEAT_TTL_SEC < now - st.updatedAt) :
    (∀ st', (cid, st') ∉ (get_controller_state_snapshot m now).2.clients) ∧
    (get_controller_state_snapshot m now).1.activeClients =
      ((m.clients.filter (fun q => !isExpiredAt now q)).length : ℤ) ∧
    (get_controller_state_snapshot m now).1.remoteNoteStateByTriggerTagId =
      renderNoteMap (((m.clients.filter (fun q => !isExpiredAt now q)).map Prod.snd).foldl
        scanLiveStep controllerScanInit.2).noteByTrigger ∧
    (get_controller_state_snapshot m now).1.activeToolByTriggerTagId =
      (renderToolMap (((m.clients.filter (fun q => !isExpiredAt now q)).map Prod.snd).foldl
        scanLiveStep controllerScanInit.2).toolByTrigger).1 ∧
    (get_controller_state_snapshot m now).2.seq = m.seq + 1 ∧
    (get_controller_state_snapshot m now).1.seq = m.seq + 1 := by
  have hcidmem : cid ∈ ((m.clients.filter (isExpiredAt now)).map Prod.fst) := by
    refine List.mem_map.mpr ⟨(cid, st), ?_, rfl⟩
    exact List.mem_filter.mpr ⟨hmem, by simp [isExpiredAt, hexp]⟩
  have hfst : (m.clients.foldl (snapshotScanStep now) controllerScanInit).1 =
      (m.clients.filter (isExpiredAt now)).map Prod.fst := by
    rw [scan_fst now m.clients controllerScanInit]
    rfl
  have hne : ¬(m.clients.foldl (snapshotScanStep now) controllerScanInit).1 = [] := by
    rw [hfst]
    intro h
    rw [h] at hcidmem
    cases hcidmem
  have hsnd := scan_snd now m.clients controllerScanInit
  refine ⟨?_, ?_, ?_, ?_, ?_, ?_⟩
  · intro st' hst'
    simp only [get_controller_state_snapshot, if_neg hne] at hst'
    have h2 := List.mem_filter.mp hst'
    have hc : (m.clients.foldl (snapshotScanStep now) controllerScanInit).1.contains cid = true := by
      rw [hfst]
      exact List.elem_iff.mpr hcidmem
    rw [hc] at h2
    simp at h2
  · simp only [get_controller_state_snapshot]
    rw [hsnd]
    rw [foldl_scanLiveStep_activeClients]
    simp [controllerScanInit]
  · simp only [get_controller_state_snapshot]
    rw [hsnd]
  · simp only [get_controller_state_snapshot]
    rw [hsnd]
  · simp only [get_controller_state_snapshot, if_neg hne]
  · simp only [get_controller_state_snapshot, if_neg hne]

def c2stateA : ClientState :=
  { active := true
    tool := "draw"
    triggerTagId := some 7
    noteText := ""
    noteSessionActive := false
    noteFinalizeTick := 0
    updatedAt := 21 / 2 }

def c2stateB : ClientState :=
  { active := true
    tool := "dot"
    triggerTagId := some 8
    noteText := ""
    noteSessionActive := false
    noteFinalizeTick := 0
    updatedAt := 2 }

def c2model : ControllerModel :=
  { clients := [("a", c2stateA), ("b", c2stateB)], seq := 3 }

/-- Witness for C2: at time 11 the client "b" (last heartbeat at 2) is purged
and the purge bumps the sequence. -/
theorem controller_snapshot_ttl_expiry_witness :
    (∀ st', ("b", st') ∉ (get_controller_state_snapshot c2model 11).2.clients) ∧
    (get_controller_state_snapshot c2model 11).2.seq = c2model.seq + 1 :=
  ⟨(controller_snapshot_ttl_expiry c2model 11 "b" c2stateB
      (List.mem_cons_of_mem _ (List.mem_cons_self _ _))
      (by norm_num [CONTROLLER_HEARTBEAT_TTL_SEC, c2stateB])).1,
   (controller_snapshot_ttl_expiry c2model 11 "b" c2stateB
      (List.mem_cons_of_mem _ (List.mem_cons_self _ _))
      (by norm_num [CONTROLLER_HEARTBEAT_TTL_SEC, c2stateB])).2.2.2.2.1⟩

/-! ## C8: remote note resolution -/

theorem scanNoteUpdate_lookup_ne (lv : LiveScan) (t tag : ℤ) (c : ClientState) (h : t ≠ tag) :
    alistLookup (scanNoteUpdate lv t c).noteByTrigger tag =
      alistLookup lv.noteByTrigger tag := by
  rcases hl : alistLookup lv.noteByTrigger t with _ | prev <;>
    simp only [scanNoteUpdate, hl] <;> split_ifs <;>
    simp [alistLookup_insert_ne _ _ _ _ h]

theorem scanNoteUpdate_lookup_self (lv : LiveScan) (tag : ℤ) (c : ClientState)
    (hwf : WFClient c) :
    alistLookup (scanNoteUpdate lv tag c).noteByTrigger tag =
      (if specNoteContributes c = true then
        (match alistLookup lv.noteByTrigger tag with
         | none => some { text := c.noteText, sessionActive := c.noteSessionActive,
                          finalizeTick := c.noteFinalizeTick, updatedAt := c.updatedAt }
         | some prev =>
           if prev.updatedAt ≤ c.updatedAt then
             some { text := c.noteText, sessionActive := c.noteSessionActive,
                    finalizeTick := c.noteFinalizeTick, updatedAt := c.updatedAt }
           else some prev)
       else alistLookup lv.noteByTrigger tag) := by
  obtain ⟨hwt, h0, h1⟩ := hwf
  have htext := sanitize_note_text_of_wf c.noteText hwt
  have htick := sanitize_tick_of_wf c.noteFinalizeTick h0 h1
  have hiff : (c.noteSessionActive = true ∨
      sanitize_controller_note_text (some c.noteText) ≠ "" ∨
      0 < sanitize_controller_note_finalize_tick (some c.noteFinalizeTick)) ↔
      specNoteContributes c = true := by
    rw [htext, htick]
    simp only [specNoteContributes, Bool.or_eq_true, decide_eq_true_eq]
    have htk : 0 < c.noteFinalizeTick ↔ c.noteFinalizeTick ≠ 0 := by omega
    tauto
  by_cases hS : specNoteContributes c = true
  · rw [if_pos hS]
    have hC := hiff.mpr hS
    rcases hl : alistLookup lv.noteByTrigger tag with _ | prev
    · simp only [scanNoteUpdate, hl]
      rw [if_pos hC]
      simp only [htext, htick]
      exact alistLookup_insert_self _ _ _
    · simp only [scanNoteUpdate, hl]
      rw [if_pos hC]
      simp only [htext, htick]
      by_cases hle : prev.updatedAt ≤ c.updatedAt
      · rw [if_pos hle, if_pos hle]
        exact alistLookup_insert_self _ _ _
      · rw [if_neg hle, if_neg hle]
        exact hl
  · rw [if_neg hS]
    have hC : ¬(c.noteSessionActive = true ∨
        sanitize_controller_note_text (some c.noteText) ≠ "" ∨
        0 < sanitize_controller_note_finalize_tick (some c.noteFinalizeTick)) :=
      fun h => hS (hiff.mp h)
    simp only [scanNoteUpdate]
    rw [if_neg hC]

theorem scanLiveStep_note_lookup (tag : ℤ) (h1 : 1 ≤ tag) (h2 : tag ≤ 9999) (c : ClientState)
    (hwf : WFClient c) (lv : LiveScan) :
    alistLookup (scanLiveStep lv c).noteByTrigger tag =
      (if c.triggerTagId = some tag ∧ specNoteContributes c = true then
        (match alistLookup lv.noteByTrigger tag with
         | none => some { text := c.noteText, sessionActive := c.noteSessionActive,
                          finalizeTick := c.noteFinalizeTick, updatedAt := c.updatedAt }
         | some prev =>
           if prev.updatedAt ≤ c.updatedAt then
             some { text := c.noteText, sessionActive := c.noteSessionActive,
                    finalizeTick := c.noteFinalizeTick, updatedAt := c.updatedAt }
           else some prev)
       else alistLookup lv.noteByTrigger tag) := by
  rcases hct : c.triggerTagId with _ | t
  · have hs : sanitize_controller_trigger_tag_id c.triggerTagId = none := by
      rw [hct]
      rfl
    have hcond : ¬((none : Option ℤ) = some tag ∧ specNoteContributes c = true) := by
      rintro ⟨hh, _⟩
      cases hh
    rw [if_neg hcond]
    simp only [scanLiveStep, hs]
  · by_cases hrange : t < 1 ∨ 9999 < t
    · have hs : sanitize_controller_trigger_tag_id c.triggerTagId = none := by
        rw [hct]
        simp [sanitize_controller_trigger_tag_id, hrange]
      have hcond : ¬(some t = some tag ∧ specNoteContributes c = true) := by
        rintro ⟨hh, _⟩
        injection hh with hh
        omega
      rw [if_neg hcond]
      simp only [scanLiveStep, hs]
    · have hs : sanitize_controller_trigger_tag_id c.triggerTagId = some t := by
        rw [hct]
        simp [sanitize_controller_trigger_tag_id, hrange]
      simp only [scanLiveStep, hs]
      rw [(scanToolUpdate_fields _ t c).2.2]
      by_cases htt : t = tag
      · subst htt
        rw [scanNoteUpdate_lookup_self _ t c hwf]
        by_cases hS : specNoteContributes c = true
        · rw [if_pos hS, if_pos (And.intro rfl hS)]
        · rw [if_neg hS,
            if_neg (fun hh : some t = some t ∧ specNoteContributes c = true => hS hh.2)]
      · rw [scanNoteUpdate_lookup_ne _ t tag c htt]
        have hcond : ¬(some t = some tag ∧ specNoteContributes c = true) := by
          rintro ⟨hh, _⟩
          injection hh with hh
          exact htt hh
        rw [if_neg hcond]

theorem foldl_scan_note_lookup (now : ℚ) (tag : ℤ) (h1 : 1 ≤ tag) (h2 : tag ≤ 9999) :
    ∀ (clients : List (String × ClientState)) (s : List String × LiveScan),
      (∀ q ∈ clients, WFClient q.2) →
      alistLookup ((clients.foldl (snapshotScanStep now) s).2).noteByTrigger tag =
        clients.foldl (specNoteStep now tag) (alistLookup s.2.noteByTrigger tag) := by
  intro clients
  induction clients with
  | nil => intro s _; rfl
  | cons q t ih =>
    intro s hwf
    by_cases hq : CONTROLLER_HEARTBEAT_TTL_SEC < now - q.2.updatedAt
    · have hstep : snapshotScanStep now s q = (s.1 ++ [q.1], s.2) := by
        simp [snapshotScanStep, hq]
      have hspec : specNoteStep now tag (alistLookup s.2.noteByTrigger tag) q =
          alistLookup s.2.noteByTrigger tag := by
        simp only [specNoteStep]
        rw [if_neg]
        rintro ⟨hle, _⟩
        exact absurd hq (not_lt.mpr hle)
      simp only [List.foldl_cons, hstep, hspec]
      exact ih _ (fun r hr => hwf r (List.mem_cons_of_mem _ hr))
    · have hstep : snapshotScanStep now s q = (s.1, scanLiveStep s.2 q.2) := by
        simp [snapshotScanStep, hq]
      have hspec : specNoteStep now tag (alistLookup s.2.noteByTrigger tag) q =
          alistLookup (scanLiveStep s.2 q.2).noteByTrigger tag := by
        rw [scanLiveStep_note_lookup tag h1 h2 q.2 (hwf q (List.mem_cons_self q t)) s.2]
        simp only [specNoteStep]
        have hlive : now - q.2.updatedAt ≤ CONTROLLER_HEARTBEAT_TTL_SEC := not_lt.mp hq
        by_cases hc : (q.2.triggerTagId = some tag ∧ specNoteContributes q.2 = true)
        · rw [if_pos (And.intro hlive hc), if_pos hc]
        · rw [if_neg (fun hh : _ ∧ _ ∧ _ => hc (And.intro hh.2.1 hh.2.2)), if_neg hc]
      simp only [List.foldl_cons, hstep]
      rw [ih _ (fun r hr => hwf r (List.mem_cons_of_mem _ hr)), hspec]

/-- C8: the remote-note resolution the snapshot computes for a valid trigger
tag equals the spec-side resolution: over the live clients, any client
reporting non-empty text, an active note session, or a non-zero finalize tick
contributes — independently of its `active` flag and tool — and the candidate
with the most recent `updatedAt` wins, a later-processed candidate with an
equal-or-greater timestamp replacing the held one.  The snapshot's rendered
note map is exactly this aggregation. -/
theorem remote_note_resolution_matches_spec (m : ControllerModel) (now : ℚ) (tag : ℤ)
    (h1 : 1 ≤ tag) (h2 : tag ≤ 9999) (hwf : ∀ q ∈ m.clients, WFClient q.2) :
    alistLookup ((m.clients.foldl (snapshotScanStep now) controllerScanInit).2).noteByTrigger
        tag = specNoteResolve now tag m.clients ∧
    (get_controller_state_snapshot m now).1.remoteNoteStateByTriggerTagId =
      renderNoteMap ((m.clients.foldl (snapshotScanStep now)
        controllerScanInit).2).noteByTrigger := by
  constructor
  · rw [foldl_scan_note_lookup now tag h1 h2 m.clients controllerScanInit hwf]
    rfl
  · rfl

def c8stateA : ClientState :=
  { active := false
    tool := "draw"
    triggerTagId := some 7
    noteText := "hello"
    noteSessionActive := false
    noteFinalizeTick := 0
    updatedAt := 10 }

def c8stateB : ClientState :=
  { active := true
    tool := "note"
    triggerTagId := some 7
    noteText := "later"
    noteSessionActive := true
    noteFinalizeTick := 1
    updatedAt := 12 }

def c8model : ControllerModel :=
  { clients := [("a", c8stateA), ("b", c8stateB)], seq := 0 }

/-- Witness for C8 at a two-client model contributing notes to tag 7. -/
theorem remote_note_resolution_matches_spec_witness :
    alistLookup ((c8model.clients.foldl (snapshotScanStep 12)
        controllerScanInit).2).noteByTrigger 7 = specNoteResolve 12 7 c8model.clients ∧
    (get_controller_state_snapshot c8model 12).1.remoteNoteStateByTriggerTagId =
      renderNoteMap ((c8model.clients.foldl (snapshotScanStep 12)
        controllerScanInit).2).noteByTrigger :=
  remote_note_resolution_matches_spec c8model 12 7 (by decide) (by decide) (by decide)

/-! ## C3: surface plane fit -/

theorem vecDot_smul_self (k : ℚ) (v : Vec3) :
    vecDot (vecSmul k v) (vecSmul k v) = k * k * vecDot v v := by
  obtain ⟨a, b, c⟩ := v
  simp only [vecDot, vecSmul]
  ring

/-- C3: with at least 3 well-formed points the handler stores the plane whose
normal is the smallest-singular-value right-singular vector of the centered
point matrix divided by its norm (hence of unit length whenever the norm
oracle is correct on it and the vector is nonzero) and whose offset is
`d = -(normal . centroid)`, answering 200; with fewer than 3 points or a
malformed point it answers 400 and leaves the stored plane unchanged. -/
theorem surface_plane_fit_spec (L : LinAlgOracle) (payload : Option (List RawPoint))
    (plane0 : Option SurfacePlane) :
    (∀ rawPts pts, payload = some rawPts → parseSurfacePoints rawPts = some pts →
      3 ≤ rawPts.length →
      surfaceStatus (api_surface_plane L payload plane0).1 = 200 ∧
      (api_surface_plane L payload plane0).2 =
        some { normal := surfaceFitNormal L pts,
               d := -(vecDot (surfaceFitNormal L pts) (vecCentroid pts)),
               numPoints := rawPts.length } ∧
      surfaceFitNormal L pts =
        vecSmul (1 / L.vecNorm (surfaceFitVector L pts)) (surfaceFitVector L pts) ∧
      (L.vecNorm (surfaceFitVector L pts) * L.vecNorm (surfaceFitVector L pts) =
          vecDot (surfaceFitVector L pts) (surfaceFitVector L pts) →
        vecDot (surfaceFitVector L pts) (surfaceFitVector L pts) ≠ 0 →
        vecDot (surfaceFitNormal L pts) (surfaceFitNormal L pts) = 1)) ∧
    ((payload = none ∨ ∃ rawPts, payload = some rawPts ∧
        (rawPts.length < 3 ∨ parseSurfacePoints rawPts = none)) →
      surfaceStatus (api_surface_plane L payload plane0).1 = 400 ∧
      (api_surface_plane L payload plane0).2 = plane0) := by
  constructor
  · rintro rawPts pts rfl hparse hlen
    have hnotlt : ¬rawPts.length < 3 := not_lt.mpr hlen
    refine ⟨?_, ?_, rfl, ?_⟩
    · simp [api_surface_plane, hnotlt, hparse, surfaceStatus]
    · simp [api_surface_plane, hnotlt, hparse]
    · intro hn hnz
      have hnn : L.vecNorm (surfaceFitVector L pts) ≠ 0 := by
        intro h0
        rw [h0, mul_zero] at hn
        exact hnz hn.symm
      show vecDot (vecSmul (1 / L.vecNorm (surfaceFitVector L pts)) (surfaceFitVector L pts))
        (vecSmul (1 / L.vecNorm (surfaceFitVector L pts)) (surfaceFitVector L pts)) = 1
      rw [vecDot_smul_self, ← hn]
      field_simp
  · rintro (rfl | ⟨rawPts, rfl, hbad⟩)
    · exact ⟨rfl, rfl⟩
    · rcases hbad with hlen | hparse
      · constructor <;> simp [api_surface_plane, hlen, surfaceStatus]
      · by_cases hlen : rawPts.length < 3
        · constructor <;> simp [api_surface_plane, hlen, surfaceStatus]
        · constructor <;> simp [api_surface_plane, hlen, hparse, surfaceStatus]

def c3oracle : LinAlgOracle :=
  { svdLastRow := fun _ => (0, 0, 1), vecNorm := fun _ => 1 }

def c3plane0 : SurfacePlane := { normal := (0, 0, 1), d := 0, numPoints := 3 }

def c3rawPts : List RawPoint :=
  [{ x := some 0, y := some 0, z := some 0 },
   { x := some 1, y := some 0, z := some 0 },
   { x := some 0, y := some 1, z := some 0 }]

def c3pts : List Vec3 := [(0, 0, 0), (1, 0, 0), (0, 1, 0)]

/-- Witness for C3 at three well-formed points and at a non-object body. -/
theorem surface_plane_fit_spec_witness :
    surfaceStatus (api_surface_plane c3oracle (some c3rawPts) none).1 = 200 ∧
    (api_surface_plane c3oracle (some c3rawPts) none).2 =
      some { normal := surfaceFitNormal c3oracle c3pts,
             d := -(vecDot (surfaceFitNormal c3oracle c3pts) (vecCentroid c3pts)),
             numPoints := c3rawPts.length } ∧
    surfaceStatus (api_surface_plane c3oracle none (some c3plane0)).1 = 400 ∧
    (api_surface_plane c3oracle none (some c3plane0)).2 = some c3plane0 :=
  ⟨((surface_plane_fit_spec c3oracle (some c3rawPts) none).1 c3rawPts c3pts rfl rfl
      (by decide)).1,
   ((surface_plane_fit_spec c3oracle (some c3rawPts) none).1 c3rawPts c3pts rfl rfl
      (by decide)).2.1,
   ((surface_plane_fit_spec c3oracle none (some c3plane0)).2 (Or.inl rfl)).1,
   ((surface_plane_fit_spec c3oracle none (some c3plane0)).2 (Or.inl rfl)).2⟩
